import Mathlib

/-! # javapackager.exe launcher (`win/javapackager.cpp`)

A shallow embedding of `wmain` and a verification of its command-line
classification, command construction and exit-status behaviour.

Modelling conventions
* `std::wstring` and `wchar_t*` values are lists of characters (`WString`).
* `argv` is the list of the `argc` argument strings, `argc = argv.length`.
  A read `argv[k]` inside the delegate branches is `argv[k]?`: it is `none`
  exactly when `k ≥ argc`, that is when the read hits the terminating null
  pointer `argv[argc]` or leaves the array.
* The outside world (the two delegate operations and process creation) is a
  record of functions, and every externally visible action is logged in a
  trace of `Event`s.
* `int` / `unsigned long` are 32 bits wide (Windows); the conversion of the
  child exit code to the `int` return value of `wmain` is explicit.
-/

set_option autoImplicit false

namespace Javapackager

/-- Wide strings as character lists. -/
abbrev WString := List Char

/-- The double-quote character, written `\"` inside the C++ literals. -/
def dquote : Char := Char.ofNat 34

/-! ## `std::wstring` operations used by `wmain` -/

/-- Search `pat` in `s`, where `s` is the suffix of the original string that
starts at position `idx`; the first position at which `pat` occurs. -/
def findFrom (pat : WString) : WString → Nat → Option Nat
  | [], idx => if pat.isPrefixOf [] then some idx else none
  | c :: cs, idx => if pat.isPrefixOf (c :: cs) then some idx else findFrom pat cs (idx + 1)

/-- Model of `s.find(pat, pos)`: the lowest position `≥ pos` at which `pat`
occurs in `s`, `none` standing for `npos`. -/
def find (s pat : WString) (pos : Nat) : Option Nat :=
  if s.length < pos then none else findFrom pat (s.drop pos) pos

/-- Model of `s.substr(pos, count)` for `pos ≤ s.length` (the library throws
`out_of_range` otherwise; both call sites come after a successful match of a
pattern of length `≥ pos`, see `substr_call_sites_in_range`). -/
def substr (s : WString) (pos count : Nat) : WString :=
  (s.drop pos).take count

/-! ## Literals of `wmain` -/

/-- The literal `L"-J-Xmx"` of the first test. -/
def memory_arg : WString := "-J-Xmx".toList

/-- Local `debug_arg`. -/
def debug_arg : WString := "-J-Xdebug:".toList

/-- Local `icon_swap_arg`. -/
def icon_swap_arg : WString := "--icon-swap".toList

/-- Local `version_swap_arg`. -/
def version_swap_arg : WString := "--version-swap".toList

/-- Local `javacmd`. -/
def javacmd : WString := "java.exe".toList

/-- Initial value of `memory`. -/
def defaultMemory : WString := "-Xmx512M".toList

/-- The literal put in front of the debug address. -/
def agentlib : WString :=
  "-agentlib:jdwp=transport=dt_socket,server=y,suspend=y,address=".toList

/-- The three adjacent literals of the command: `--add-exports`,
`--module-path` (with its quoted jar list) and `--module`. -/
def fixedOptions : WString :=
  " --add-exports=jdk.jlink/jdk.tools.jlink.internal.packager=com.brcolow.javapackager".toList
  ++ (" --module-path ".toList ++ [dquote]
      ++ "build/libs/fxpackager.jar;build/deps/javafx-base-11-win.jar;build/deps/javafx-graphics-11-win.jar;build/deps/javafx-controls-11-win.jar;build/deps/bcprov-jdk15on-1.60.jar;build/deps/bcpkix-jdk15on-1.60.jar".toList
      ++ [dquote])
  ++ " --module com.brcolow.javapackager/com.sun.openjfx.tools.packager.Main".toList

/-- Usage text of the icon-swap branch. -/
def iconUsage : WString :=
  "Usage: javapackager.exe --icon-swap [Icon File Name] [Executable File Name]\n".toList

/-- Usage text of the version-swap branch. -/
def versionUsage : WString :=
  "Usage: javapackager.exe --version-swap [Property File Name] [Executable File Name]\n".toList

/-! ## World and observable behaviour -/

/-- The external collaborators. `CreateProcess cmd = none` means that process
creation fails; `some c` means that the child is created and that
`GetExitCodeProcess` stores `c` after the wait. -/
structure World where
  ChangeIcon : Option WString → Option WString → Bool
  PatchExecutable : Option WString → Option WString → Bool
  CreateProcess : WString → Option Nat

/-- Handles closed at the end of the success path. -/
inductive Handle where
  | hProcess
  | hThread
  deriving DecidableEq

/-- Externally visible actions of one run, in program order. -/
inductive Event where
  | stdout (text : WString)
  | stdoutArg (label : WString) (arg : Option WString)
  | stderr (text : WString)
  | changeIcon (iconFile exeFile : Option WString)
  | patchExecutable (resourceFile exeFile : Option WString)
  | createProcess (cmd : WString)
  | waitForSingleObject
  | getExitCodeProcess
  | closeHandle (h : Handle)
  deriving DecidableEq

/-- Result of a run: the value returned by `wmain` and the trace. -/
structure Outcome where
  status : Int
  trace : List Event
  deriving DecidableEq

/-- Conversion of a 32-bit `unsigned long` to `int` (`return exitCode;`). -/
def toInt32 (n : Nat) : Int :=
  if n % 2 ^ 32 < 2 ^ 31 then ((n % 2 ^ 32 : Nat) : Int) else ((n % 2 ^ 32 : Nat) : Int) - 2 ^ 32

/-- The exit code of the launcher process as the system records it: the
return value of `wmain` as an unsigned 32-bit number. -/
def processExitCode (status : Int) : Nat := (status % 2 ^ 32).toNat

/-! ## The program -/

/-- The variables `memory`, `debug` and `args` of `wmain`. -/
structure LaunchConfig where
  memory : WString
  debug : WString
  args : WString
  deriving DecidableEq

/-- Values of `memory`, `debug`, `args` before the loop. -/
def initialConfig : LaunchConfig := ⟨defaultMemory, [], []⟩

/-- How the argument loop ends: it runs to completion, or it enters the
icon-swap or the version-swap branch at index `i` (both branches end in a
`return` on every path). -/
inductive Selected where
  | normalLaunch (cfg : LaunchConfig)
  | iconSwapDelegate (i : Nat)
  | versionSwapDelegate (i : Nat)
  deriving DecidableEq

/-- The loop `for (int i = 1; i < argc; i++)`: the first argument is the list
`argv[i], ..., argv[argc-1]` still to be visited, the second is `i`. -/
def classify : List WString → Nat → LaunchConfig → Selected
  | [], _, cfg => .normalLaunch cfg
  | argument :: rest, i, cfg =>
    if find argument memory_arg 0 = some 0 then
      classify rest (i + 1) { cfg with memory := substr argument 2 (argument.length - 2) }
    else if find argument debug_arg 0 = some 0 then
      let address := substr argument debug_arg.length (argument.length - debug_arg.length)
      classify rest (i + 1) { cfg with debug := agentlib ++ address }
    else if find argument icon_swap_arg 0 = some 0 then
      .iconSwapDelegate i
    else if find argument version_swap_arg 0 = some 0 then
      .versionSwapDelegate i
    else
      classify rest (i + 1) { cfg with args := cfg.args ++ (" ".toList ++ [dquote]) ++ argument ++ [dquote] }

/-- Body of the icon-swap branch, entered at index `i`. -/
def iconSwap (w : World) (argv : List WString) (i : Nat) : Outcome :=
  if argv.length ≠ 4 then
    ⟨1, [.stderr iconUsage]⟩
  else
    let shown := [Event.stdoutArg "Icon File Name: ".toList argv[i + 1]?,
                  Event.stdoutArg "Executable File Name: ".toList argv[i + 2]?,
                  Event.changeIcon argv[i + 1]? argv[i + 2]?]
    if w.ChangeIcon argv[i + 1]? argv[i + 2]? = true then
      ⟨0, shown⟩
    else
      ⟨1, shown ++ [.stderr "failed\n".toList]⟩

/-- Body of the version-swap branch, entered at index `i`. -/
def versionSwap (w : World) (argv : List WString) (i : Nat) : Outcome :=
  if argv.length ≠ 4 then
    ⟨1, [.stderr versionUsage]⟩
  else
    let shown := [Event.stdoutArg "Resource File Name: ".toList argv[i + 1]?,
                  Event.stdoutArg "Executable File Name: ".toList argv[i + 2]?,
                  Event.patchExecutable argv[i + 1]? argv[i + 2]?]
    if w.PatchExecutable argv[i + 1]? argv[i + 2]? = true then
      ⟨0, shown⟩
    else
      ⟨1, shown ++ [.stderr "failed\n".toList]⟩

/-- The command string: `cmd` after `cmd += debug + L" " + memory + ... + L" " + args`. -/
def commandLine (cfg : LaunchConfig) : WString :=
  ([dquote] ++ javacmd ++ [dquote])
    ++ (cfg.debug ++ " ".toList ++ cfg.memory ++ fixedOptions ++ " ".toList ++ cfg.args)

/-- The code after the loop: print the command, create the process, wait for
it and return its exit code (`EXIT_FAILURE` is 1). -/
def launch (w : World) (cfg : LaunchConfig) : Outcome :=
  let cmd := commandLine cfg
  match w.CreateProcess cmd with
  | none =>
    ⟨1, [.stdout ("cmd: ".toList ++ cmd ++ "\n".toList), .createProcess cmd,
         .stderr "Cannot start java.exe".toList]⟩
  | some exitCode =>
    ⟨toInt32 exitCode,
     [.stdout ("cmd: ".toList ++ cmd ++ "\n".toList), .createProcess cmd,
      .waitForSingleObject, .getExitCodeProcess,
      .closeHandle .hProcess, .closeHandle .hThread]⟩

/-- Model of `wmain(argc, argv)` with `argc = argv.length`. -/
def wmain (w : World) (argv : List WString) : Outcome :=
  match classify (argv.drop 1) 1 initialConfig with
  | .normalLaunch cfg => launch w cfg
  | .iconSwapDelegate i => iconSwap w argv i
  | .versionSwapDelegate i => versionSwap w argv i

/-! ## Observations on a run -/

/-- Command strings handed to `CreateProcess`, in order. -/
def spawned (o : Outcome) : List WString :=
  o.trace.filterMap fun e => match e with
    | .createProcess cmd => some cmd
    | _ => none

/-- Operand pairs of the calls of the icon-replace operation, in order. -/
def iconCalls (o : Outcome) : List (Option WString × Option WString) :=
  o.trace.filterMap fun e => match e with
    | .changeIcon a b => some (a, b)
    | _ => none

/-- Operand pairs of the calls of the version-patch operation, in order. -/
def patchCalls (o : Outcome) : List (Option WString × Option WString) :=
  o.trace.filterMap fun e => match e with
    | .patchExecutable a b => some (a, b)
    | _ => none

/-- Number of blocking waits on the child. -/
def waits (o : Outcome) : Nat :=
  o.trace.count .waitForSingleObject

/-- A token enters one of the two delegate branches. -/
def triggersDelegate (t : WString) : Prop :=
  icon_swap_arg <+: t ∨ version_swap_arg <+: t

instance (t : WString) : Decidable (triggersDelegate t) := by
  unfold triggersDelegate; infer_instance

/-- One passthrough token as it is appended to `args`. -/
def quoted (t : WString) : WString :=
  " ".toList ++ [dquote] ++ t ++ [dquote]

/-- First whitespace-delimited token of a command line: what `CreateProcess`
takes as the module name when `lpApplicationName` is `NULL`. -/
def firstToken (cmd : WString) : WString :=
  cmd.takeWhile fun c => c != ' ' && c != '\t'

/-- A world in which both delegate operations succeed and the child exits
with code 0. -/
def quietWorld : World := ⟨fun _ _ => true, fun _ _ => true, fun _ => some 0⟩

/-- The loop body on a token that enters neither delegate branch. -/
def step (cfg : LaunchConfig) (t : WString) : LaunchConfig :=
  if memory_arg <+: t then { cfg with memory := t.drop 2 }
  else if debug_arg <+: t then { cfg with debug := agentlib ++ t.drop debug_arg.length }
  else { cfg with args := cfg.args ++ quoted t }

/-! ## String operations -/

theorem findFrom_ge (pat : WString) (s : WString) (idx k : Nat)
    (h : findFrom pat s idx = some k) : idx ≤ k := by
  induction s generalizing idx with
  | nil =>
    unfold findFrom at h
    split at h
    · exact le_of_eq (Option.some.inj h)
    · exact absurd h (by simp)
  | cons c cs ih =>
    unfold findFrom at h
    split at h
    · exact le_of_eq (Option.some.inj h)
    · exact Nat.le_of_succ_le (ih _ h)

/-- The test `s.find(pat, 0) == 0` holds exactly when `s` begins with `pat`. -/
theorem find_zero_iff (s pat : WString) : find s pat 0 = some 0 ↔ pat <+: s := by
  unfold find
  simp only [Nat.not_lt_zero, if_false, List.drop_zero]
  cases s with
  | nil => unfold findFrom; simp [List.isPrefixOf_iff_prefix]
  | cons c cs =>
    unfold findFrom
    by_cases hp : pat.isPrefixOf (c :: cs) = true
    · simp only [hp, if_true, true_iff]
      exact List.isPrefixOf_iff_prefix.mp hp
    · simp only [hp]
      constructor
      · intro h
        have := findFrom_ge _ _ _ _ h
        omega
      · intro h
        exact absurd (List.isPrefixOf_iff_prefix.mpr h) hp

/-- At both call sites `substr(pos, length - pos)` is the rest of the string
from `pos` on. -/
theorem substr_rest (t : WString) (pos : Nat) : substr t pos (t.length - pos) = t.drop pos := by
  unfold substr
  exact List.take_of_length_le (by simp)

/-- The start positions of both `substr` calls lie inside the string, so no
`out_of_range` is thrown. -/
theorem substr_call_sites_in_range (t : WString) :
    (find t memory_arg 0 = some 0 → 2 ≤ t.length) ∧
    (find t debug_arg 0 = some 0 → debug_arg.length ≤ t.length) := by
  constructor
  · intro h
    have := ((find_zero_iff _ _).mp h).length_le
    have h6 : memory_arg.length = 6 := by decide
    omega
  · intro h
    exact ((find_zero_iff _ _).mp h).length_le

/-- Two of the recognised beginnings never fit the same token unless one
begins with the other. -/
theorem not_both_begin {p q t : WString} (hpq : ¬ p <+: q) (hqp : ¬ q <+: p)
    (hp : p <+: t) : ¬ q <+: t := by
  intro hq
  rcases List.prefix_or_prefix_of_prefix hp hq with h | h
  · exact hpq h
  · exact hqp h

/-! ## One iteration of the loop -/

theorem classify_memory (t : WString) (rest : List WString) (i : Nat) (cfg : LaunchConfig)
    (h : memory_arg <+: t) :
    classify (t :: rest) i cfg = classify rest (i + 1) (step cfg t) := by
  simp [classify, step, find_zero_iff, h, substr_rest]

theorem classify_debug (t : WString) (rest : List WString) (i : Nat) (cfg : LaunchConfig)
    (h : debug_arg <+: t) :
    classify (t :: rest) i cfg = classify rest (i + 1) (step cfg t) := by
  have hm : ¬ memory_arg <+: t := not_both_begin (by decide) (by decide) h
  simp [classify, step, find_zero_iff, h, hm, substr_rest]

theorem classify_icon (t : WString) (rest : List WString) (i : Nat) (cfg : LaunchConfig)
    (h : icon_swap_arg <+: t) :
    classify (t :: rest) i cfg = .iconSwapDelegate i := by
  have hm : ¬ memory_arg <+: t := not_both_begin (by decide) (by decide) h
  have hd : ¬ debug_arg <+: t := not_both_begin (by decide) (by decide) h
  simp [classify, find_zero_iff, h, hm, hd]

theorem classify_version (t : WString) (rest : List WString) (i : Nat) (cfg : LaunchConfig)
    (h : version_swap_arg <+: t) :
    classify (t :: rest) i cfg = .versionSwapDelegate i := by
  have hm : ¬ memory_arg <+: t := not_both_begin (by decide) (by decide) h
  have hd : ¬ debug_arg <+: t := not_both_begin (by decide) (by decide) h
  have hi : ¬ icon_swap_arg <+: t := not_both_begin (by decide) (by decide) h
  simp [classify, find_zero_iff, h, hm, hd, hi]

theorem classify_other (t : WString) (rest : List WString) (i : Nat) (cfg : LaunchConfig)
    (h : ¬ triggersDelegate t) :
    classify (t :: rest) i cfg = classify rest (i + 1) (step cfg t) := by
  have hi : ¬ icon_swap_arg <+: t := fun hh => h (Or.inl hh)
  have hv : ¬ version_swap_arg <+: t := fun hh => h (Or.inr hh)
  by_cases hm : memory_arg <+: t
  · exact classify_memory t rest i cfg hm
  · by_cases hd : debug_arg <+: t
    · exact classify_debug t rest i cfg hd
    · simp [classify, step, quoted, find_zero_iff, hm, hd, hi, hv]

/-! ## The whole loop -/

/-- Without a delegate token the loop runs to completion and folds `step`
over the tokens. -/
theorem classify_normal (toks : List WString) (i : Nat) (cfg : LaunchConfig)
    (h : ∀ t ∈ toks, ¬ triggersDelegate t) :
    classify toks i cfg = .normalLaunch (toks.foldl step cfg) := by
  induction toks generalizing i cfg with
  | nil => simp [classify]
  | cons t ts ih =>
    rw [classify_other t ts i cfg (h t (List.mem_cons_self _ _))]
    rw [ih _ _ (fun u hu => h u (List.mem_cons_of_mem _ hu))]
    rfl

/-- The loop stops at the leftmost delegate token, whatever follows it. -/
theorem classify_leftmost (pre : List WString) (t : WString) (post : List WString)
    (i : Nat) (cfg : LaunchConfig) (h : ∀ u ∈ pre, ¬ triggersDelegate u) :
    (icon_swap_arg <+: t → classify (pre ++ t :: post) i cfg = .iconSwapDelegate (i + pre.length)) ∧
    (version_swap_arg <+: t →
      classify (pre ++ t :: post) i cfg = .versionSwapDelegate (i + pre.length)) := by
  induction pre generalizing i cfg with
  | nil =>
    exact ⟨fun ht => by simpa using classify_icon t post i cfg ht,
           fun ht => by simpa using classify_version t post i cfg ht⟩
  | cons u us ih =>
    have hu := h u (List.mem_cons_self _ _)
    have hus : ∀ v ∈ us, ¬ triggersDelegate v := fun v hv => h v (List.mem_cons_of_mem _ hv)
    have e : i + 1 + us.length = i + (u :: us).length := by simp; omega
    constructor
    · intro ht
      rw [List.cons_append, classify_other u _ i cfg hu, (ih (i + 1) _ hus).1 ht, e]
    · intro ht
      rw [List.cons_append, classify_other u _ i cfg hu, (ih (i + 1) _ hus).2 ht, e]

/-- A list with a delegate token splits at its leftmost one. -/
theorem split_leftmost (toks : List WString) (h : ∃ t ∈ toks, triggersDelegate t) :
    ∃ pre t post, toks = pre ++ t :: post ∧ (∀ u ∈ pre, ¬ triggersDelegate u) ∧
      triggersDelegate t := by
  induction toks with
  | nil => obtain ⟨t, ht, _⟩ := h; simp at ht
  | cons a as ih =>
    by_cases ha : triggersDelegate a
    · exact ⟨[], a, as, rfl, by simp, ha⟩
    · obtain ⟨t, ht, htt⟩ := h
      rcases List.mem_cons.mp ht with rfl | hmem
      · exact absurd htt ha
      · obtain ⟨pre, u, post, e, hpre, hu⟩ := ih ⟨t, hmem, htt⟩
        refine ⟨a :: pre, u, post, by rw [e]; rfl, ?_, hu⟩
        intro v hv
        rcases List.mem_cons.mp hv with rfl | hv
        · exact ha
        · exact hpre v hv

/-! ## What the loop leaves in `memory`, `debug` and `args` -/

theorem step_memory (c : LaunchConfig) (t : WString) (h : memory_arg <+: t) :
    (step c t).memory = t.drop 2 := by
  simp [step, h]

theorem step_memory_keep (c : LaunchConfig) (t : WString) (h : ¬ memory_arg <+: t) :
    (step c t).memory = c.memory := by
  unfold step
  rw [if_neg h]
  split <;> rfl

theorem step_debug (c : LaunchConfig) (t : WString) (h : debug_arg <+: t) :
    (step c t).debug = agentlib ++ t.drop debug_arg.length := by
  have hm : ¬ memory_arg <+: t := not_both_begin (by decide) (by decide) h
  simp [step, h, hm]

theorem step_debug_keep (c : LaunchConfig) (t : WString) (h : ¬ debug_arg <+: t) :
    (step c t).debug = c.debug := by
  unfold step
  split <;> rfl

theorem step_args (c : LaunchConfig) (t : WString) (hm : ¬ memory_arg <+: t)
    (hd : ¬ debug_arg <+: t) : (step c t).args = c.args ++ quoted t := by
  simp [step, hm, hd]

theorem step_args_grow (c : LaunchConfig) (t : WString) :
    ∃ s, (step c t).args = c.args ++ s := by
  unfold step
  split
  · exact ⟨[], by simp⟩
  · split
    · exact ⟨[], by simp⟩
    · exact ⟨quoted t, rfl⟩

theorem foldl_step_memory_keep (l : List WString) (c : LaunchConfig)
    (h : ∀ u ∈ l, ¬ memory_arg <+: u) : (l.foldl step c).memory = c.memory := by
  induction l generalizing c with
  | nil => rfl
  | cons a as ih =>
    rw [List.foldl_cons, ih _ (fun u hu => h u (List.mem_cons_of_mem _ hu)),
      step_memory_keep _ _ (h a (List.mem_cons_self _ _))]

theorem foldl_step_debug_keep (l : List WString) (c : LaunchConfig)
    (h : ∀ u ∈ l, ¬ debug_arg <+: u) : (l.foldl step c).debug = c.debug := by
  induction l generalizing c with
  | nil => rfl
  | cons a as ih =>
    rw [List.foldl_cons, ih _ (fun u hu => h u (List.mem_cons_of_mem _ hu)),
      step_debug_keep _ _ (h a (List.mem_cons_self _ _))]

theorem foldl_step_args (l : List WString) (c : LaunchConfig)
    (h : ∀ u ∈ l, ¬ memory_arg <+: u ∧ ¬ debug_arg <+: u) :
    (l.foldl step c).args = c.args ++ l.flatMap quoted := by
  induction l generalizing c with
  | nil => simp
  | cons a as ih =>
    have ha := h a (List.mem_cons_self _ _)
    rw [List.foldl_cons, ih _ (fun u hu => h u (List.mem_cons_of_mem _ hu)),
      step_args _ _ ha.1 ha.2]
    simp

theorem foldl_step_args_grow (l : List WString) (c : LaunchConfig) :
    ∃ s, (l.foldl step c).args = c.args ++ s := by
  induction l generalizing c with
  | nil => exact ⟨[], by simp⟩
  | cons a as ih =>
    obtain ⟨s₁, h₁⟩ := step_args_grow c a
    obtain ⟨s₂, h₂⟩ := ih (step c a)
    exact ⟨s₁ ++ s₂, by rw [List.foldl_cons, h₂, h₁, List.append_assoc]⟩

/-- The last token beginning with `-J-Xmx` decides `memory`. -/
theorem foldl_step_memory_last (pre : List WString) (t : WString) (post : List WString)
    (c : LaunchConfig) (ht : memory_arg <+: t) (hpost : ∀ u ∈ post, ¬ memory_arg <+: u) :
    ((pre ++ t :: post).foldl step c).memory = t.drop 2 := by
  rw [List.foldl_append, List.foldl_cons, foldl_step_memory_keep _ _ hpost, step_memory _ _ ht]

/-- The last token beginning with `-J-Xdebug:` decides `debug`. -/
theorem foldl_step_debug_last (pre : List WString) (t : WString) (post : List WString)
    (c : LaunchConfig) (ht : debug_arg <+: t) (hpost : ∀ u ∈ post, ¬ debug_arg <+: u) :
    ((pre ++ t :: post).foldl step c).debug = agentlib ++ t.drop debug_arg.length := by
  rw [List.foldl_append, List.foldl_cons, foldl_step_debug_keep _ _ hpost, step_debug _ _ ht]

/-- Every passthrough token is found quoted in `args`. -/
theorem foldl_step_args_mem (l : List WString) (c : LaunchConfig) (t : WString) (ht : t ∈ l)
    (hm : ¬ memory_arg <+: t) (hd : ¬ debug_arg <+: t) :
    quoted t <:+: (l.foldl step c).args := by
  obtain ⟨pre, post, rfl⟩ := List.append_of_mem ht
  obtain ⟨s, hs⟩ := foldl_step_args_grow post (step (pre.foldl step c) t)
  rw [List.foldl_append, List.foldl_cons, hs, step_args _ _ hm hd]
  exact ⟨(pre.foldl step c).args, s, rfl⟩

/-! ## The three ways a run ends -/

theorem wmain_normal (w : World) (argv : List WString)
    (h : ∀ t ∈ argv.drop 1, ¬ triggersDelegate t) :
    wmain w argv = launch w ((argv.drop 1).foldl step initialConfig) := by
  unfold wmain
  rw [classify_normal _ _ _ h]

theorem launch_failed (w : World) (cfg : LaunchConfig)
    (h : w.CreateProcess (commandLine cfg) = none) :
    launch w cfg =
      ⟨1, [.stdout ("cmd: ".toList ++ commandLine cfg ++ "\n".toList),
           .createProcess (commandLine cfg), .stderr "Cannot start java.exe".toList]⟩ := by
  unfold launch
  simp only [h]

theorem launch_started (w : World) (cfg : LaunchConfig) (c : Nat)
    (h : w.CreateProcess (commandLine cfg) = some c) :
    launch w cfg =
      ⟨toInt32 c, [.stdout ("cmd: ".toList ++ commandLine cfg ++ "\n".toList),
           .createProcess (commandLine cfg), .waitForSingleObject, .getExitCodeProcess,
           .closeHandle .hProcess, .closeHandle .hThread]⟩ := by
  unfold launch
  simp only [h]

theorem spawned_launch (w : World) (cfg : LaunchConfig) :
    spawned (launch w cfg) = [commandLine cfg] := by
  rcases h : w.CreateProcess (commandLine cfg) with _ | c
  · rw [launch_failed w cfg h]; rfl
  · rw [launch_started w cfg c h]; rfl

theorem calls_launch (w : World) (cfg : LaunchConfig) :
    iconCalls (launch w cfg) = [] ∧ patchCalls (launch w cfg) = [] := by
  rcases h : w.CreateProcess (commandLine cfg) with _ | c
  · rw [launch_failed w cfg h]; exact ⟨rfl, rfl⟩
  · rw [launch_started w cfg c h]; exact ⟨rfl, rfl⟩

theorem spawned_iconSwap (w : World) (argv : List WString) (i : Nat) :
    spawned (iconSwap w argv i) = [] ∧ patchCalls (iconSwap w argv i) = [] := by
  unfold iconSwap spawned patchCalls
  split
  · exact ⟨rfl, rfl⟩
  · dsimp only
    split <;> exact ⟨rfl, rfl⟩

theorem spawned_versionSwap (w : World) (argv : List WString) (i : Nat) :
    spawned (versionSwap w argv i) = [] ∧ iconCalls (versionSwap w argv i) = [] := by
  unfold versionSwap spawned iconCalls
  split
  · exact ⟨rfl, rfl⟩
  · dsimp only
    split <;> exact ⟨rfl, rfl⟩

theorem wmain_icon (w : World) (argv pre : List WString) (t : WString) (post : List WString)
    (e : argv.drop 1 = pre ++ t :: post) (hpre : ∀ u ∈ pre, ¬ triggersDelegate u)
    (ht : icon_swap_arg <+: t) :
    classify (argv.drop 1) 1 initialConfig = .iconSwapDelegate (pre.length + 1) ∧
      wmain w argv = iconSwap w argv (pre.length + 1) := by
  have hc := (classify_leftmost pre t post 1 initialConfig hpre).1 ht
  rw [Nat.add_comm 1 pre.length, ← e] at hc
  exact ⟨hc, by unfold wmain; rw [hc]⟩

theorem wmain_version (w : World) (argv pre : List WString) (t : WString) (post : List WString)
    (e : argv.drop 1 = pre ++ t :: post) (hpre : ∀ u ∈ pre, ¬ triggersDelegate u)
    (ht : version_swap_arg <+: t) :
    classify (argv.drop 1) 1 initialConfig = .versionSwapDelegate (pre.length + 1) ∧
      wmain w argv = versionSwap w argv (pre.length + 1) := by
  have hc := (classify_leftmost pre t post 1 initialConfig hpre).2 ht
  rw [Nat.add_comm 1 pre.length, ← e] at hc
  exact ⟨hc, by unfold wmain; rw [hc]⟩

theorem iconSwap_usage (w : World) (argv : List WString) (i : Nat) (h : argv.length ≠ 4) :
    iconSwap w argv i = ⟨1, [.stderr iconUsage]⟩ := by
  unfold iconSwap
  rw [if_pos h]

theorem versionSwap_usage (w : World) (argv : List WString) (i : Nat) (h : argv.length ≠ 4) :
    versionSwap w argv i = ⟨1, [.stderr versionUsage]⟩ := by
  unfold versionSwap
  rw [if_pos h]

/-- The 32-bit exit code survives the passage through the `int` return value. -/
theorem processExitCode_toInt32 (c : Nat) (h : c < 2 ^ 32) : processExitCode (toInt32 c) = c := by
  unfold processExitCode toInt32
  have hc : c % 2 ^ 32 = c := Nat.mod_eq_of_lt h
  rw [hc]
  split <;> omega

/-- The token at which the loop enters a delegate branch begins with the
flag of that branch. -/
theorem classify_delegate_token (toks : List WString) (i : Nat) (cfg : LaunchConfig) (j : Nat) :
    (classify toks i cfg = .iconSwapDelegate j →
      i ≤ j ∧ ∃ t, toks[j - i]? = some t ∧ icon_swap_arg <+: t) ∧
    (classify toks i cfg = .versionSwapDelegate j →
      i ≤ j ∧ ∃ t, toks[j - i]? = some t ∧ version_swap_arg <+: t) := by
  induction toks generalizing i cfg with
  | nil => simp [classify]
  | cons a as ih =>
    by_cases hi : icon_swap_arg <+: a
    · rw [classify_icon a as i cfg hi]
      constructor
      · intro h
        cases h
        exact ⟨le_refl _, a, by simp, hi⟩
      · intro h
        cases h
    · by_cases hv : version_swap_arg <+: a
      · rw [classify_version a as i cfg hv]
        constructor
        · intro h
          cases h
        · intro h
          cases h
          exact ⟨le_refl _, a, by simp, hv⟩
      · rw [classify_other a as i cfg (fun h => h.elim hi hv)]
        have key : ∀ k, i + 1 ≤ k → (a :: as)[k - i]? = as[k - (i + 1)]? := by
          intro k hk
          have : k - i = (k - (i + 1)) + 1 := by omega
          rw [this, List.getElem?_cons_succ]
        constructor
        · intro h
          obtain ⟨hle, t, ht, hp⟩ := (ih (i + 1) _).1 h
          exact ⟨by omega, t, by rw [key j hle]; exact ht, hp⟩
        · intro h
          obtain ⟨hle, t, ht, hp⟩ := (ih (i + 1) _).2 h
          exact ⟨by omega, t, by rw [key j hle]; exact ht, hp⟩

/-! ## Command construction -/

/-- C1: when no token after the program name begins with `-J-Xmx`,
`-J-Xdebug:`, `--icon-swap` or `--version-swap`, the one command handed to
`CreateProcess` is the quoted `java.exe`, an empty debug segment, a space and
`-Xmx512M`, the fixed options, a space, and then every token in its original
order as a space followed by the token in double quotes. -/
theorem plain_arguments_command (w : World) (argv : List WString)
    (h : ∀ t ∈ argv.drop 1, ¬ memory_arg <+: t ∧ ¬ debug_arg <+: t ∧
      ¬ icon_swap_arg <+: t ∧ ¬ version_swap_arg <+: t) :
    spawned (wmain w argv) =
      [([dquote] ++ "java.exe".toList ++ [dquote]) ++ [] ++ (" ".toList ++ "-Xmx512M".toList)
        ++ fixedOptions ++ " ".toList
        ++ (argv.drop 1).flatMap (fun t => " ".toList ++ [dquote] ++ t ++ [dquote])] := by
  have hno : ∀ t ∈ argv.drop 1, ¬ triggersDelegate t := fun t ht ht2 =>
    ht2.elim (h t ht).2.2.1 (h t ht).2.2.2
  have hmd : ∀ t ∈ argv.drop 1, ¬ memory_arg <+: t ∧ ¬ debug_arg <+: t := fun t ht =>
    ⟨(h t ht).1, (h t ht).2.1⟩
  rw [wmain_normal w argv hno, spawned_launch]
  unfold commandLine
  rw [foldl_step_args _ _ hmd, foldl_step_memory_keep _ _ (fun t ht => (hmd t ht).1),
    foldl_step_debug_keep _ _ (fun t ht => (hmd t ht).2)]
  have hq : quoted = fun t => " ".toList ++ [dquote] ++ t ++ [dquote] := rfl
  rw [hq]
  simp [initialConfig, defaultMemory, javacmd, List.append_assoc]

/-- Witness of C1 on `javapackager.exe -deploy "my app"`. -/
theorem plain_arguments_command_witness :
    (∀ t ∈ ["javapackager.exe".toList, "-deploy".toList, "my app".toList].drop 1,
      ¬ memory_arg <+: t ∧ ¬ debug_arg <+: t ∧ ¬ icon_swap_arg <+: t ∧ ¬ version_swap_arg <+: t) ∧
    spawned (wmain quietWorld ["javapackager.exe".toList, "-deploy".toList, "my app".toList]) =
      [([dquote] ++ "java.exe".toList ++ [dquote]) ++ [] ++ (" ".toList ++ "-Xmx512M".toList)
        ++ fixedOptions ++ " ".toList
        ++ (["javapackager.exe".toList, "-deploy".toList, "my app".toList].drop 1).flatMap
            (fun t => " ".toList ++ [dquote] ++ t ++ [dquote])] :=
  ⟨by decide, plain_arguments_command quietWorld _ (by decide)⟩

/-- C2: when no token enters a delegate branch, the command handed to
`CreateProcess` is built from the final `debug`, `memory` and `args`, and its
memory segment is the last token beginning with `-J-Xmx` without its first
two characters, or `-Xmx512M` when there is no such token. -/
theorem memory_segment_last_override (w : World) (argv : List WString)
    (h : ∀ t ∈ argv.drop 1, ¬ triggersDelegate t) :
    ∃ cfg, classify (argv.drop 1) 1 initialConfig = .normalLaunch cfg ∧
      spawned (wmain w argv) =
        [([dquote] ++ "java.exe".toList ++ [dquote]) ++ cfg.debug ++ " ".toList ++ cfg.memory
          ++ fixedOptions ++ " ".toList ++ cfg.args] ∧
      (∀ pre t post, argv.drop 1 = pre ++ t :: post → memory_arg <+: t →
        (∀ u ∈ post, ¬ memory_arg <+: u) → cfg.memory = t.drop 2) ∧
      ((∀ u ∈ argv.drop 1, ¬ memory_arg <+: u) → cfg.memory = "-Xmx512M".toList) := by
  refine ⟨(argv.drop 1).foldl step initialConfig, classify_normal _ _ _ h, ?_, ?_, ?_⟩
  · rw [wmain_normal w argv h, spawned_launch]
    simp [commandLine, javacmd, List.append_assoc]
  · intro pre t post e ht hpost
    rw [e]
    exact foldl_step_memory_last pre t post _ ht hpost
  · intro hnone
    rw [foldl_step_memory_keep _ _ hnone]
    rfl

/-- Witness of C2: of `-J-Xmx256M -deploy -J-Xmx1024M` the segment is
`-Xmx1024M`. -/
theorem memory_segment_last_override_witness :
    (∀ t ∈ ["javapackager.exe".toList, "-J-Xmx256M".toList, "-deploy".toList,
        "-J-Xmx1024M".toList].drop 1, ¬ triggersDelegate t) ∧
    ∃ cfg, classify (["javapackager.exe".toList, "-J-Xmx256M".toList, "-deploy".toList,
        "-J-Xmx1024M".toList].drop 1) 1 initialConfig = .normalLaunch cfg ∧
      cfg.memory = "-Xmx1024M".toList :=
  ⟨by decide,
   (memory_segment_last_override quietWorld
      ["javapackager.exe".toList, "-J-Xmx256M".toList, "-deploy".toList, "-J-Xmx1024M".toList]
      (by decide)).elim fun cfg hc =>
    ⟨cfg, hc.1, hc.2.2.1 ["-J-Xmx256M".toList, "-deploy".toList] "-J-Xmx1024M".toList [] rfl
      (by decide) (by decide)⟩⟩

/-- C3: when no token enters a delegate branch, the debug segment of the
command is `-agentlib:jdwp=transport=dt_socket,server=y,suspend=y,address=`
followed by everything after `-J-Xdebug:` in the last token that begins with
it, this text occurs in the command handed to `CreateProcess`, and the debug
segment is empty when there is no such token. -/
theorem debug_segment_last_address (w : World) (argv : List WString)
    (h : ∀ t ∈ argv.drop 1, ¬ triggersDelegate t) :
    ∃ cfg cmd, classify (argv.drop 1) 1 initialConfig = .normalLaunch cfg ∧
      spawned (wmain w argv) = [cmd] ∧
      cmd = ([dquote] ++ "java.exe".toList ++ [dquote]) ++ cfg.debug ++ " ".toList ++ cfg.memory
          ++ fixedOptions ++ " ".toList ++ cfg.args ∧
      (∀ pre address post, argv.drop 1 = pre ++ (debug_arg ++ address) :: post →
        (∀ u ∈ post, ¬ debug_arg <+: u) →
          cfg.debug = agentlib ++ address ∧ (agentlib ++ address) <:+: cmd) ∧
      ((∀ u ∈ argv.drop 1, ¬ debug_arg <+: u) → cfg.debug = []) := by
  refine ⟨(argv.drop 1).foldl step initialConfig, _, classify_normal _ _ _ h, ?_, rfl, ?_, ?_⟩
  · rw [wmain_normal w argv h, spawned_launch]
    simp [commandLine, javacmd, List.append_assoc]
  · intro pre address post e hpost
    have hd : ((argv.drop 1).foldl step initialConfig).debug = agentlib ++ address := by
      rw [e, foldl_step_debug_last pre _ post _ (List.prefix_append _ _) hpost, List.drop_left]
    refine ⟨hd, ?_⟩
    rw [hd]
    exact ⟨[dquote] ++ "java.exe".toList ++ [dquote],
      " ".toList ++ ((argv.drop 1).foldl step initialConfig).memory ++ fixedOptions
        ++ " ".toList ++ ((argv.drop 1).foldl step initialConfig).args,
      by simp [List.append_assoc]⟩
  · intro hnone
    rw [foldl_step_debug_keep _ _ hnone]
    rfl

/-- Witness of C3: `-J-Xdebug:5005` puts
`-agentlib:jdwp=transport=dt_socket,server=y,suspend=y,address=5005` into the
command. -/
theorem debug_segment_last_address_witness :
    (∀ t ∈ ["javapackager.exe".toList, "-J-Xdebug:5005".toList].drop 1, ¬ triggersDelegate t) ∧
    ∃ cmd, spawned (wmain quietWorld ["javapackager.exe".toList, "-J-Xdebug:5005".toList]) = [cmd] ∧
      "-agentlib:jdwp=transport=dt_socket,server=y,suspend=y,address=5005".toList <:+: cmd :=
  ⟨by decide,
   (debug_segment_last_address quietWorld ["javapackager.exe".toList, "-J-Xdebug:5005".toList]
      (by decide)).elim fun _ hc => hc.elim fun cmd hc =>
    ⟨cmd, hc.2.1, (hc.2.2.2.1 [] "5005".toList [] rfl (by decide)).2⟩⟩

/-! ## Delegate sub-commands -/

/-- C4: on `[program, --icon-swap, x, y]` the icon-replace operation is
called exactly once, with `(x, y)`, the version-patch operation is not called,
no process is created, and the status is 0 when the operation succeeds and 1
otherwise; the same holds for `--version-swap` and the version-patch
operation. -/
theorem delegate_call_contract (w : World) (prog x y : WString) :
    (iconCalls (wmain w [prog, icon_swap_arg, x, y]) = [(some x, some y)] ∧
      patchCalls (wmain w [prog, icon_swap_arg, x, y]) = [] ∧
      spawned (wmain w [prog, icon_swap_arg, x, y]) = [] ∧
      (wmain w [prog, icon_swap_arg, x, y]).status =
        if w.ChangeIcon (some x) (some y) = true then 0 else 1) ∧
    (patchCalls (wmain w [prog, version_swap_arg, x, y]) = [(some x, some y)] ∧
      iconCalls (wmain w [prog, version_swap_arg, x, y]) = [] ∧
      spawned (wmain w [prog, version_swap_arg, x, y]) = [] ∧
      (wmain w [prog, version_swap_arg, x, y]).status =
        if w.PatchExecutable (some x) (some y) = true then 0 else 1) := by
  constructor
  · have hw := (wmain_icon w [prog, icon_swap_arg, x, y] [] icon_swap_arg [x, y] rfl
      (by simp) (List.prefix_refl _)).2
    rw [hw]
    by_cases hc : w.ChangeIcon (some x) (some y) = true
    · simp [iconSwap, iconCalls, patchCalls, spawned, hc]
    · simp [iconSwap, iconCalls, patchCalls, spawned, hc]
  · have hw := (wmain_version w [prog, version_swap_arg, x, y] [] version_swap_arg [x, y] rfl
      (by simp) (List.prefix_refl _)).2
    rw [hw]
    by_cases hc : w.PatchExecutable (some x) (some y) = true
    · simp [versionSwap, iconCalls, patchCalls, spawned, hc]
    · simp [versionSwap, iconCalls, patchCalls, spawned, hc]

/-- C5: when the argument count is not 4 and some token enters a delegate
branch, the run returns 1 after printing the usage text of that branch, calls
neither delegate operation and creates no process. -/
theorem delegate_usage_error (w : World) (argv : List WString) (hlen : argv.length ≠ 4)
    (h : ∃ t ∈ argv.drop 1, triggersDelegate t) :
    (wmain w argv).status = 1 ∧ iconCalls (wmain w argv) = [] ∧
      patchCalls (wmain w argv) = [] ∧ spawned (wmain w argv) = [] ∧
      ((wmain w argv).trace = [.stderr iconUsage] ∨
        (wmain w argv).trace = [.stderr versionUsage]) := by
  obtain ⟨pre, t, post, e, hpre, ht⟩ := split_leftmost _ h
  rcases ht with ht | ht
  · rw [(wmain_icon w argv pre t post e hpre ht).2, iconSwap_usage w argv _ hlen]
    exact ⟨rfl, rfl, rfl, rfl, Or.inl rfl⟩
  · rw [(wmain_version w argv pre t post e hpre ht).2, versionSwap_usage w argv _ hlen]
    exact ⟨rfl, rfl, rfl, rfl, Or.inr rfl⟩

/-- Witness of C5 on `javapackager.exe --icon-swap a.ico` (3 arguments). -/
theorem delegate_usage_error_witness :
    ["javapackager.exe".toList, "--icon-swap".toList, "a.ico".toList].length ≠ 4 ∧
    (∃ t ∈ ["javapackager.exe".toList, "--icon-swap".toList, "a.ico".toList].drop 1,
      triggersDelegate t) ∧
    (wmain quietWorld ["javapackager.exe".toList, "--icon-swap".toList, "a.ico".toList]).status = 1 ∧
    iconCalls (wmain quietWorld
      ["javapackager.exe".toList, "--icon-swap".toList, "a.ico".toList]) = [] :=
  ⟨by decide, by decide,
   (delegate_usage_error quietWorld
      ["javapackager.exe".toList, "--icon-swap".toList, "a.ico".toList] (by decide) (by decide)).1,
   (delegate_usage_error quietWorld
      ["javapackager.exe".toList, "--icon-swap".toList, "a.ico".toList] (by decide) (by decide)).2.1⟩

/-! ## Process execution -/

/-- C6: when no token enters a delegate branch, exactly one command, the
constructed one, is handed to `CreateProcess`; if creation fails the run
returns 1 and never waits; if it succeeds the run waits once and returns the
child exit code, which is also the exit code of the launcher process. -/
theorem launch_exit_status (w : World) (argv : List WString)
    (h : ∀ t ∈ argv.drop 1, ¬ triggersDelegate t) :
    ∃ cfg, classify (argv.drop 1) 1 initialConfig = .normalLaunch cfg ∧
      spawned (wmain w argv) = [commandLine cfg] ∧
      (w.CreateProcess (commandLine cfg) = none →
        (wmain w argv).status = 1 ∧ waits (wmain w argv) = 0) ∧
      (∀ c, w.CreateProcess (commandLine cfg) = some c →
        waits (wmain w argv) = 1 ∧ (wmain w argv).status = toInt32 c ∧
          (c < 2 ^ 32 → processExitCode (wmain w argv).status = c)) := by
  refine ⟨(argv.drop 1).foldl step initialConfig, classify_normal _ _ _ h, ?_, ?_, ?_⟩
  · rw [wmain_normal w argv h, spawned_launch]
  · intro hf
    rw [wmain_normal w argv h, launch_failed w _ hf]
    exact ⟨rfl, by simp [waits]⟩
  · intro c hs
    rw [wmain_normal w argv h, launch_started w _ c hs]
    exact ⟨by simp [waits], rfl, processExitCode_toInt32 c⟩

/-- Witness of C6: a child that ends with code 3221225477 (0xC0000005). -/
theorem launch_exit_status_witness :
    (∀ t ∈ ["javapackager.exe".toList, "-deploy".toList].drop 1, ¬ triggersDelegate t) ∧
    ∃ cfg, spawned (wmain ⟨fun _ _ => true, fun _ _ => true, fun _ => some 3221225477⟩
        ["javapackager.exe".toList, "-deploy".toList]) = [commandLine cfg] ∧
      processExitCode (wmain ⟨fun _ _ => true, fun _ _ => true, fun _ => some 3221225477⟩
        ["javapackager.exe".toList, "-deploy".toList]).status = 3221225477 :=
  ⟨by decide,
   (launch_exit_status ⟨fun _ _ => true, fun _ _ => true, fun _ => some 3221225477⟩
      ["javapackager.exe".toList, "-deploy".toList] (by decide)).elim fun cfg hc =>
    ⟨cfg, hc.2.1, (hc.2.2.2 3221225477 rfl).2.2 (by norm_num)⟩⟩

/-! ## Selection of the path -/

/-- C7: the loop ends in exactly one of the three ways of `Selected`. If some
token enters a delegate branch, the branch of the leftmost such token is the
one taken, whatever precedes or follows it, and no process is created; if no
token does, the launch code runs and neither delegate operation is called. -/
theorem one_path_selected (w : World) (argv : List WString) :
    (∀ pre t post, argv.drop 1 = pre ++ t :: post → (∀ u ∈ pre, ¬ triggersDelegate u) →
      (icon_swap_arg <+: t →
        classify (argv.drop 1) 1 initialConfig = .iconSwapDelegate (pre.length + 1) ∧
          wmain w argv = iconSwap w argv (pre.length + 1) ∧
          spawned (wmain w argv) = [] ∧ patchCalls (wmain w argv) = []) ∧
      (version_swap_arg <+: t →
        classify (argv.drop 1) 1 initialConfig = .versionSwapDelegate (pre.length + 1) ∧
          wmain w argv = versionSwap w argv (pre.length + 1) ∧
          spawned (wmain w argv) = [] ∧ iconCalls (wmain w argv) = [])) ∧
    ((∀ u ∈ argv.drop 1, ¬ triggersDelegate u) →
      ∃ cfg, classify (argv.drop 1) 1 initialConfig = .normalLaunch cfg ∧
        wmain w argv = launch w cfg ∧ spawned (wmain w argv) = [commandLine cfg] ∧
        iconCalls (wmain w argv) = [] ∧ patchCalls (wmain w argv) = []) := by
  constructor
  · intro pre t post e hpre
    constructor
    · intro ht
      obtain ⟨hc, hw⟩ := wmain_icon w argv pre t post e hpre ht
      refine ⟨hc, hw, ?_, ?_⟩
      · rw [hw]; exact (spawned_iconSwap w argv _).1
      · rw [hw]; exact (spawned_iconSwap w argv _).2
    · intro ht
      obtain ⟨hc, hw⟩ := wmain_version w argv pre t post e hpre ht
      refine ⟨hc, hw, ?_, ?_⟩
      · rw [hw]; exact (spawned_versionSwap w argv _).1
      · rw [hw]; exact (spawned_versionSwap w argv _).2
  · intro h
    refine ⟨_, classify_normal _ _ _ h, wmain_normal w argv h, ?_, ?_, ?_⟩
    · rw [wmain_normal w argv h, spawned_launch]
    · rw [wmain_normal w argv h]; exact (calls_launch w _).1
    · rw [wmain_normal w argv h]; exact (calls_launch w _).2

/-- Witness of C7: in `javapackager.exe -v --version-swap --icon-swap` the
version-swap branch is taken, at index 2. -/
theorem one_path_selected_witness :
    ["javapackager.exe".toList, "-v".toList, "--version-swap".toList, "--icon-swap".toList].drop 1
        = ["-v".toList] ++ "--version-swap".toList :: ["--icon-swap".toList] ∧
    (∀ u ∈ ["-v".toList], ¬ triggersDelegate u) ∧
    version_swap_arg <+: "--version-swap".toList ∧
    classify (["javapackager.exe".toList, "-v".toList, "--version-swap".toList,
        "--icon-swap".toList].drop 1) 1 initialConfig = .versionSwapDelegate 2 ∧
    spawned (wmain quietWorld ["javapackager.exe".toList, "-v".toList, "--version-swap".toList,
        "--icon-swap".toList]) = [] :=
  ⟨rfl, by decide, by decide,
   (((one_path_selected quietWorld ["javapackager.exe".toList, "-v".toList,
      "--version-swap".toList, "--icon-swap".toList]).1 ["-v".toList] "--version-swap".toList
      ["--icon-swap".toList] rfl (by decide)).2 (by decide)).1,
   (((one_path_selected quietWorld ["javapackager.exe".toList, "-v".toList,
      "--version-swap".toList, "--icon-swap".toList]).1 ["-v".toList] "--version-swap".toList
      ["--icon-swap".toList] rfl (by decide)).2 (by decide)).2.2.1⟩

/-- C8, as stated, fails: the token `--icon-swapper` is not equal to
`--icon-swap` and begins with neither `-J-Xmx` nor `-J-Xdebug:`, yet the loop
enters the icon-swap branch at it, the icon-replace operation is called with
the two tokens that follow, and no command is constructed or spawned. -/
theorem icon_swapper_not_passthrough :
    "--icon-swapper".toList ≠ icon_swap_arg ∧ "--icon-swapper".toList ≠ version_swap_arg ∧
    ¬ memory_arg <+: "--icon-swapper".toList ∧ ¬ debug_arg <+: "--icon-swapper".toList ∧
    classify (["javapackager.exe".toList, "--icon-swapper".toList, "a.ico".toList,
        "app.exe".toList].drop 1) 1 initialConfig = .iconSwapDelegate 1 ∧
    iconCalls (wmain quietWorld ["javapackager.exe".toList, "--icon-swapper".toList,
        "a.ico".toList, "app.exe".toList]) = [(some "a.ico".toList, some "app.exe".toList)] ∧
    spawned (wmain quietWorld ["javapackager.exe".toList, "--icon-swapper".toList,
        "a.ico".toList, "app.exe".toList]) = [] := by
  decide

/-- C8, amended: the loop enters the icon-swap (version-swap) branch only at a
token that begins with `--icon-swap` (`--version-swap`); and when no token
begins with either, every token that begins with neither `-J-Xmx` nor
`-J-Xdebug:` occurs, as a space followed by the token in double quotes, in the
command handed to `CreateProcess`. -/
theorem delegate_trigger_by_beginning (w : World) (argv : List WString) :
    (∀ i, classify (argv.drop 1) 1 initialConfig = .iconSwapDelegate i →
      ∃ t, argv[i]? = some t ∧ icon_swap_arg <+: t) ∧
    (∀ i, classify (argv.drop 1) 1 initialConfig = .versionSwapDelegate i →
      ∃ t, argv[i]? = some t ∧ version_swap_arg <+: t) ∧
    ((∀ u ∈ argv.drop 1, ¬ triggersDelegate u) →
      ∀ t ∈ argv.drop 1, ¬ memory_arg <+: t → ¬ debug_arg <+: t →
        ∃ cmd, spawned (wmain w argv) = [cmd] ∧
          (" ".toList ++ [dquote] ++ t ++ [dquote]) <:+: cmd) := by
  have key : ∀ i, 1 ≤ i → (argv.drop 1)[i - 1]? = argv[i]? := by
    intro i hi
    rw [List.getElem?_drop]
    congr 1
    omega
  refine ⟨?_, ?_, ?_⟩
  · intro i hc
    obtain ⟨hle, t, ht, hp⟩ := (classify_delegate_token _ 1 _ i).1 hc
    exact ⟨t, by rw [← key i hle]; exact ht, hp⟩
  · intro i hc
    obtain ⟨hle, t, ht, hp⟩ := (classify_delegate_token _ 1 _ i).2 hc
    exact ⟨t, by rw [← key i hle]; exact ht, hp⟩
  · intro h t ht hm hd
    refine ⟨_, by rw [wmain_normal w argv h, spawned_launch], ?_⟩
    obtain ⟨a, b, hab⟩ := foldl_step_args_mem (argv.drop 1) initialConfig t ht hm hd
    unfold commandLine
    rw [← hab]
    exact ⟨[dquote] ++ javacmd ++ [dquote]
        ++ (((argv.drop 1).foldl step initialConfig).debug ++ " ".toList
          ++ ((argv.drop 1).foldl step initialConfig).memory ++ fixedOptions ++ " ".toList ++ a),
      b, by simp [quoted, List.append_assoc]⟩

/-- Witness of amended C8: `--swap-icon` is passed through quoted. -/
theorem delegate_trigger_by_beginning_witness :
    (∀ u ∈ ["javapackager.exe".toList, "--swap-icon".toList].drop 1, ¬ triggersDelegate u) ∧
    "--swap-icon".toList ∈ ["javapackager.exe".toList, "--swap-icon".toList].drop 1 ∧
    ¬ memory_arg <+: "--swap-icon".toList ∧ ¬ debug_arg <+: "--swap-icon".toList ∧
    ∃ cmd, spawned (wmain quietWorld ["javapackager.exe".toList, "--swap-icon".toList]) = [cmd] ∧
      (" ".toList ++ [dquote] ++ "--swap-icon".toList ++ [dquote]) <:+: cmd :=
  ⟨by decide, by decide, by decide, by decide,
   (delegate_trigger_by_beginning quietWorld
      ["javapackager.exe".toList, "--swap-icon".toList]).2.2 (by decide) _ (by decide)
      (by decide) (by decide)⟩

/-! ## Defects -/

/-- C9 fails on `javapackager.exe -J-Xdebug:5005`: `debug` is appended to the
quoted `java.exe` with no space between them, so the first
whitespace-delimited token of the command is
`"java.exe"-agentlib:jdwp=transport=dt_socket,server=y,suspend=y,address=5005`
and not `"java.exe"`. -/
theorem debug_flag_joined_to_runtime_name :
    (spawned (wmain quietWorld ["javapackager.exe".toList, "-J-Xdebug:5005".toList])).map firstToken
      = [[dquote] ++ "java.exe".toList ++ [dquote]
          ++ "-agentlib:jdwp=transport=dt_socket,server=y,suspend=y,address=5005".toList] ∧
    (spawned (wmain quietWorld ["javapackager.exe".toList, "-J-Xdebug:5005".toList])).map firstToken
      ≠ [[dquote] ++ "java.exe".toList ++ [dquote]] := by
  decide

/-- C10 fails on `javapackager.exe a.ico app.exe --icon-swap`: the argument
count is 4, the icon-swap branch is entered at index 3, and the operands read
at indices 4 and 5 are not arguments of the list (index 4 is the terminating
null pointer, index 5 lies outside the array); the icon-replace operation is
called with them. With the flag at index 2 the second operand is missing. -/
theorem delegate_operands_out_of_range :
    ["javapackager.exe".toList, "a.ico".toList, "app.exe".toList, "--icon-swap".toList].length = 4 ∧
    classify (["javapackager.exe".toList, "a.ico".toList, "app.exe".toList,
        "--icon-swap".toList].drop 1) 1 initialConfig = .iconSwapDelegate 3 ∧
    ¬ (3 + 1 < 4) ∧ ¬ (3 + 2 < 4) ∧
    iconCalls (wmain quietWorld ["javapackager.exe".toList, "a.ico".toList, "app.exe".toList,
        "--icon-swap".toList]) = [(none, none)] ∧
    patchCalls (wmain quietWorld ["javapackager.exe".toList, "x".toList,
        "--version-swap".toList, "app.exe".toList]) = [(some "app.exe".toList, none)] := by
  decide

end Javapackager
